import Mathlib

/-!
# danoand/reverseproxy: the authenticating reverse proxy of `main.go`

A shallow embedding of `src/main.go` (package `main`: `init`, `authMidWare`,
`main`) together with the few standard-library routines the program calls
(`net/textproto` header canonicalisation and lookup, the director installed by
`httputil.NewSingleHostReverseProxy`, and the response writer of `net/http`
with its content sniffing).

Go `string` values are sequences of bytes; they are modelled as `List Char`,
one character per byte, and literals are written `"...".toList`.
-/

namespace Gateway

/-- Go `string`. -/
abbrev Str := List Char

/-! ## net/textproto: header keys -/

/-- Go `'a' <= c && c <= 'z'`. -/
def isLowerByte (c : Char) : Bool := decide (97 ≤ c.toNat) && decide (c.toNat ≤ 122)

/-- Go `'A' <= c && c <= 'Z'`. -/
def isUpperByte (c : Char) : Bool := decide (65 ≤ c.toNat) && decide (c.toNat ≤ 90)

/-- Go `'0' <= c && c <= '9'`. -/
def isDigitByte (c : Char) : Bool := decide (48 ≤ c.toNat) && decide (c.toNat ≤ 57)

/-- The constant `toLower = 'a' - 'A'` of net/textproto. -/
def toLower : Nat := 32

/-- Model of net/textproto `validHeaderFieldByte`: the bitmap of RFC 7230 token
bytes, i.e. digits, letters and the listed punctuation. -/
def validHeaderFieldByte (c : Char) : Bool :=
  isDigitByte c || isLowerByte c || isUpperByte c || "!#$%&'*+-.^_`|~".toList.contains c

/-- The second loop of net/textproto `canonicalMIMEHeaderKey`: first letter and
every letter after a dash upper case, every other letter lower case; `upper`
is the flag carried from one byte to the next. -/
def canonLoop : Bool → Str → Str
  | _, [] => []
  | upper, c :: cs =>
    let c1 :=
      if upper && isLowerByte c then Char.ofNat (c.toNat - toLower)
      else if !upper && isUpperByte c then Char.ofNat (c.toNat + toLower)
      else c
    c1 :: canonLoop (c1 == '-') cs

/-- Model of net/textproto `canonicalMIMEHeaderKey(a []byte) (string, bool)`:
the empty key is refused (`false`); a key holding a byte that is neither a
token byte nor a space is returned unchanged with `false`; a key holding a
space is returned unchanged with `true`; any other key is canonicalised. (The
final `commonHeader` lookup only interns the result and is the identity on
values.) -/
def canonicalMIMEHeaderKey (a : Str) : Str × Bool :=
  if a.length == 0 then ([], false)
  else if a.any (fun c => !validHeaderFieldByte c && c != ' ') then (a, false)
  else if a.any (fun c => !validHeaderFieldByte c) then (a, true)
  else (canonLoop true a, true)

/-- The quick check of net/textproto `CanonicalMIMEHeaderKey(s string)`: `s`
is returned as it is when it holds an invalid byte or is already canonical,
and is handed to `canonicalMIMEHeaderKey` at the first byte of the wrong case. -/
def canonicalQuickCheck (s : Str) : Bool → Str → Str
  | _, [] => s
  | upper, c :: cs =>
    if !validHeaderFieldByte c then s
    else if upper && isLowerByte c then (canonicalMIMEHeaderKey s).1
    else if !upper && isUpperByte c then (canonicalMIMEHeaderKey s).1
    else canonicalQuickCheck s (c == '-') cs

/-- Model of net/textproto `CanonicalMIMEHeaderKey`. -/
def CanonicalMIMEHeaderKey (s : Str) : Str := canonicalQuickCheck s true s

/-! ## net/http: headers, requests, response writers, handlers -/

/-- Go `http.Header`, a `map[string][]string`: a key that is absent maps to
the empty slice. -/
abbrev Header := Str → List Str

/-- Model of `http.Header.Get` (`textproto.MIMEHeader.Get`): the first value
stored under the canonical form of `key`, the empty string when there is none. -/
def Header.Get (h : Header) (key : Str) : Str :=
  match h (CanonicalMIMEHeaderKey key) with
  | [] => []
  | v :: _ => v

/-- The fields of `url.URL` the program reads or writes. -/
structure URL where
  Scheme : Str
  Host : Str
  Path : Str
  RawPath : Str
  RawQuery : Str

/-- The fields of `http.Request` the program reads or writes. -/
structure Request where
  Method : Str
  URL : URL
  Host : Str
  Header : Header
  Body : Str
  RemoteAddr : Str

/-- The interface `http.ResponseWriter` over a world state `σ`: `HeaderSet k v`
stands for `w.Header().Set(k, v)`. -/
structure ResponseWriter (σ : Type) where
  HeaderSet : Str → Str → σ → σ
  WriteHeader : Nat → σ → σ
  Write : Str → σ → σ

/-- The interface `http.Handler`: `ServeHTTP(w, r)` as a transformer of the
world state. -/
abbrev Handler (σ : Type) := ResponseWriter σ → Request → σ → σ

/-- The constant `http.StatusUnauthorized`. -/
def StatusUnauthorized : Nat := 401

/-! ## net/textproto: storing the request header -/

/-- The storing step of `textproto.Reader.ReadMIMEHeader` for one header field,
given the name `k` the reader cut off before the colon and the value `value`
it extracted: `key, ok := canonicalMIMEHeaderKey(k)`, a protocol error when
`ok` is false (`none`: the server answers 400 and calls no handler), and
`m[key] = append(m[key], value)` otherwise. How the reader splits a line and
trims and validates the value is not part of this step. -/
def storeField (m : Header) (k value : Str) : Option Header :=
  let key := canonicalMIMEHeaderKey k
  if !key.2 then none
  else some (fun k1 => if k1 = key.1 then m k1 ++ [value] else m k1)

/-- The storing steps of `ReadMIMEHeader` for the fields of a request, in the
order they were sent, starting from the map `m`. -/
def storeFields : Header → List (Str × Str) → Option Header
  | m, [] => some m
  | m, (k, v) :: rest =>
    match storeField m k v with
    | none => none
    | some m1 => storeFields m1 rest

/-! ## net/http/httputil: the single-host reverse proxy -/

/-- Go `strings.HasSuffix(a, "/")`. -/
def hasSuffixSlash (a : Str) : Bool := a.getLast? == some '/'

/-- Go `strings.HasPrefix(b, "/")`. -/
def hasPrefixSlash (b : Str) : Bool := b.head? == some '/'

/-- Model of httputil `singleJoiningSlash`. -/
def singleJoiningSlash (a b : Str) : Str :=
  let aslash := hasSuffixSlash a
  let bslash := hasPrefixSlash b
  if aslash && bslash then a ++ b.drop 1
  else if !aslash && !bslash then a ++ "/".toList ++ b
  else a ++ b

/-- Model of httputil `joinURLPath`; `esc` is `(*url.URL).EscapedPath`. -/
def joinURLPath (esc : URL → Str) (a b : URL) : Str × Str :=
  if a.RawPath == [] && b.RawPath == [] then
    (singleJoiningSlash a.Path b.Path, [])
  else
    let apath := esc a
    let bpath := esc b
    let aslash := hasSuffixSlash apath
    let bslash := hasPrefixSlash bpath
    if aslash && bslash then (a.Path ++ b.Path.drop 1, apath ++ bpath.drop 1)
    else if !aslash && !bslash then
      (a.Path ++ "/".toList ++ b.Path, apath ++ "/".toList ++ bpath)
    else (a.Path ++ b.Path, apath ++ bpath)

/-- Model of httputil `rewriteRequestURL(req, target)`, the whole director of
`NewSingleHostReverseProxy`: only `req.URL` is assigned, `req.Host` is not. -/
def rewriteRequestURL (esc : URL → Str) (req : Request) (target : URL) : Request :=
  let targetQuery := target.RawQuery
  let u1 : URL := { req.URL with Scheme := target.Scheme }
  let u2 : URL := { u1 with Host := target.Host }
  let joined := joinURLPath esc target u2
  let u3 : URL := { u2 with Path := joined.1, RawPath := joined.2 }
  let u4 : URL :=
    if targetQuery == [] || u3.RawQuery == [] then
      { u3 with RawQuery := targetQuery ++ u3.RawQuery }
    else
      { u3 with RawQuery := targetQuery ++ "&".toList ++ u3.RawQuery }
  { req with URL := u4 }

/-- The standard-library routines the program calls and this development takes
as given: `url.Parse` (`none` is a non-nil error), `(*url.URL).EscapedPath`,
and `forward`, everything `(*httputil.ReverseProxy).ServeHTTP` does with the
outbound request once the director has run (hop-by-hop header removal,
`X-Forwarded-For`, the round trip to the origin and the relay of its
response); none of these later steps assigns the outbound `URL` or `Host`. -/
structure StdLib (σ : Type) where
  urlParse : Str → Option URL
  EscapedPath : URL → Str
  forward : Request → ResponseWriter σ → σ → σ

/-- The fields of `httputil.ReverseProxy` set by `NewSingleHostReverseProxy`. -/
structure ReverseProxy (σ : Type) where
  Director : Request → Request
  forward : Request → ResponseWriter σ → σ → σ

/-- Model of `httputil.NewSingleHostReverseProxy(target)`. -/
def NewSingleHostReverseProxy {σ : Type} (lib : StdLib σ) (target : URL) : ReverseProxy σ :=
  { Director := fun req => rewriteRequestURL lib.EscapedPath req target
    forward := lib.forward }

/-- Model of `(*httputil.ReverseProxy).ServeHTTP`: the director runs on the
clone of the inbound request and the outbound request is forwarded. -/
def ReverseProxy.ServeHTTP {σ : Type} (p : ReverseProxy σ) : Handler σ :=
  fun w r s => p.forward (p.Director r) w s

/-! ## main.go -/

/-- The package-level configuration variables of main.go (lines 11-19). -/
structure Globals where
  envTarget : Str
  envPort : Str
  envKey : Str
  envKeyVal : Str

/-- The process environment: a variable is unset (`none`) or has a value. -/
abbrev Env := Str → Option Str

/-- Go `os.Getenv`: the empty string for a variable that is unset. -/
def Getenv (env : Env) (key : Str) : Str := (env key).getD []

/-- `init` of main.go (lines 22-33): `Except.error 1` is `os.Exit(1)`. -/
def init (env : Env) : Except Nat Globals :=
  let envTarget := Getenv env "RP_TARGET_URL".toList
  let envPort := Getenv env "RP_PORT".toList
  let envKey := Getenv env "RP_HEADER_KEY".toList
  let envKeyVal := Getenv env "RP_HEADER_KEY_VAL".toList
  if envPort.length == 0 || envTarget.length == 0 || envKey.length == 0
      || envKeyVal.length == 0 then
    Except.error 1
  else
    Except.ok { envTarget := envTarget, envPort := envPort, envKey := envKey,
                envKeyVal := envKeyVal }

/-- `authMidWare` of main.go (lines 38-50). -/
def authMidWare {σ : Type} (next : Handler σ) : Handler σ :=
  fun w r s =>
    if Header.Get r.Header "X-ContentKey".toList == "OK".toList then
      next w r s
    else
      w.Write "unauthorized request".toList (w.WriteHeader StatusUnauthorized s)

/-- What `main` has set up when it reaches `http.ListenAndServe`: the globals,
the parsed target, the handler registered with `http.Handle` under `pattern`,
and the address handed to `ListenAndServe`. -/
structure Server (σ : Type) where
  globals : Globals
  target : URL
  pattern : Str
  handler : Handler σ
  addr : Str

/-- `main` of main.go (lines 52-71): `Except.error 1` is `os.Exit(1)`,
`Except.ok` the server that `http.ListenAndServe(envPort, nil)` is asked to
run. -/
def main {σ : Type} (lib : StdLib σ) (g : Globals) : Except Nat (Server σ) :=
  match lib.urlParse g.envTarget with
  | none => Except.error 1
  | some target =>
    let rprxHandler := NewSingleHostReverseProxy lib target
    Except.ok { globals := g, target := target, pattern := "/".toList,
                handler := authMidWare rprxHandler.ServeHTTP, addr := g.envPort }

/-- The program: `init` runs before `main`. -/
def run {σ : Type} (lib : StdLib σ) (env : Env) : Except Nat (Server σ) :=
  match init env with
  | Except.error code => Except.error code
  | Except.ok g => main lib g

/-! ## Observation: the log of calls a handler makes -/

/-- The calls a handler can make: on the response writer, on the downstream
handler, and (the proxy) on the origin with an outbound request. -/
inductive Call where
  | headerSet (k v : Str)
  | writeHeader (code : Nat)
  | write (p : Str)
  | serveHTTP (r : Request)
  | forward (out : Request)

/-- A response writer that logs every call made on it. -/
def logWriter : ResponseWriter (List Call) :=
  { HeaderSet := fun k v t => t ++ [Call.headerSet k v]
    WriteHeader := fun code t => t ++ [Call.writeHeader code]
    Write := fun p t => t ++ [Call.write p] }

/-- A downstream handler that logs its invocation and the request it is given. -/
def logNext : Handler (List Call) := fun _ r t => t ++ [Call.serveHTTP r]

/-- A standard library whose `forward` logs the outbound request. -/
def logLib (urlParse : Str → Option URL) (esc : URL → Str) : StdLib (List Call) :=
  { urlParse := urlParse
    EscapedPath := esc
    forward := fun out _ t => t ++ [Call.forward out] }

/-- Whether a call is an invocation of what lies behind the middleware. -/
def Call.isDelegation : Call → Bool
  | Call.serveHTTP _ => true
  | Call.forward _ => true
  | _ => false

/-- The decision of a handler on a request, read off its call log: `true` when
it delegated, `false` when it did not. -/
def delegates (h : Handler (List Call)) (r : Request) : Bool :=
  (h logWriter r []).any Call.isDelegation

/-- The byte `c`, an upper-case ASCII letter replaced by its lower-case form. -/
def foldByte (c : Char) : Char :=
  if isUpperByte c then Char.ofNat (c.toNat + toLower) else c

/-- Two header names are the same up to letter case. -/
def sameLetters (a b : Str) : Prop := a.map foldByte = b.map foldByte

/-! ## net/http: content sniffing (sniff.go) -/

/-- The constant `sniffLen`. -/
def sniffLen : Nat := 512

/-- Model of `isWS`: tab, line feed, form feed, carriage return, space. -/
def isWS (b : Nat) : Bool := b == 9 || b == 10 || b == 12 || b == 13 || b == 32

/-- Model of `isTT`: space and `>`. -/
def isTT (b : Nat) : Bool := b == 32 || b == 62

/-- The bytes of an ASCII string literal. -/
def bytesOf (s : String) : List Nat := s.toList.map Char.toNat

/-- The kinds of `sniffSig`. -/
inductive SniffSig where
  | htmlSig (h : List Nat)
  | maskedSig (mask pat : List Nat) (skipWS : Bool) (ct : Str)
  | exactSig (sig : List Nat) (ct : Str)
  | mp4Sig
  | textSig

/-- The loop of `htmlSig.match`: every byte of the signature equals the data
byte, upper-cased where the signature byte is an upper-case letter. -/
def htmlSigLoop : List Nat → List Nat → Bool
  | [], _ => true
  | _ :: _, [] => false
  | b :: bs, db :: ds =>
    let db1 := if 65 ≤ b && b ≤ 90 then db &&& 0xDF else db
    if b != db1 then false else htmlSigLoop bs ds

/-- Model of `htmlSig.match`; the empty string is "no match". -/
def htmlSigMatch (h data : List Nat) (firstNonWS : Nat) : Str :=
  let data1 := data.drop firstNonWS
  if data1.length < h.length + 1 then []
  else if !htmlSigLoop h data1 then []
  else if !isTT (data1.getD h.length 0) then []
  else "text/html; charset=utf-8".toList

/-- The loop of `maskedSig.match`: every masked data byte equals the pattern byte. -/
def maskedSigLoop : List Nat → List Nat → List Nat → Bool
  | [], _, _ => true
  | pb :: ps, m :: ms, d :: ds => if (d &&& m) != pb then false else maskedSigLoop ps ms ds
  | _ :: _, _, _ => false

/-- Model of `maskedSig.match`. -/
def maskedSigMatch (mask pat : List Nat) (skipWS : Bool) (ct : Str) (data : List Nat)
    (firstNonWS : Nat) : Str :=
  let data1 := if skipWS then data.drop firstNonWS else data
  if pat.length != mask.length then []
  else if data1.length < pat.length then []
  else if maskedSigLoop pat mask data1 then ct
  else []

/-- Model of `exactSig.match`: `bytes.HasPrefix(data, sig)`. -/
def exactSigMatch (sig : List Nat) (ct : Str) (data : List Nat) : Str :=
  if sig.isPrefixOf data then ct else []

/-- The loop of `mp4Sig.match` over the brands of the `ftyp` box, from offset
`st` in steps of four; the fuel bounds the number of rounds by the data length. -/
def mp4SigLoop (data : List Nat) (boxSize : Nat) : Nat → Nat → Bool
  | 0, _ => false
  | fuel + 1, st =>
    if st < boxSize then
      if st == 12 then mp4SigLoop data boxSize fuel (st + 4)
      else if (data.drop st).take 3 == bytesOf "mp4" then true
      else mp4SigLoop data boxSize fuel (st + 4)
    else false

/-- Model of `mp4Sig.match`. -/
def mp4SigMatch (data : List Nat) : Str :=
  if data.length < 12 then []
  else
    let boxSize := ((data.getD 0 0 * 256 + data.getD 1 0) * 256 + data.getD 2 0) * 256
      + data.getD 3 0
    if data.length < boxSize || boxSize % 4 != 0 then []
    else if (data.drop 4).take 4 != bytesOf "ftyp" then []
    else if mp4SigLoop data boxSize data.length 8 then "video/mp4".toList
    else []

/-- Model of `textSig.match`: no binary byte after the leading whitespace. -/
def textSigMatch (data : List Nat) (firstNonWS : Nat) : Str :=
  if (data.drop firstNonWS).any
      (fun b => b ≤ 8 || b == 11 || (14 ≤ b && b ≤ 26) || (28 ≤ b && b ≤ 31)) then []
  else "text/plain; charset=utf-8".toList

/-- The method `match` of a signature. -/
def SniffSig.sigMatch (sig : SniffSig) (data : List Nat) (firstNonWS : Nat) : Str :=
  match sig with
  | SniffSig.htmlSig h => htmlSigMatch h data firstNonWS
  | SniffSig.maskedSig mask pat skipWS ct => maskedSigMatch mask pat skipWS ct data firstNonWS
  | SniffSig.exactSig sg ct => exactSigMatch sg ct data
  | SniffSig.mp4Sig => mp4SigMatch data
  | SniffSig.textSig => textSigMatch data firstNonWS

/-- The table `sniffSignatures`, in its order. -/
def sniffSignatures : List SniffSig :=
  [ SniffSig.htmlSig (bytesOf "<!DOCTYPE HTML"),
    SniffSig.htmlSig (bytesOf "<HTML"),
    SniffSig.htmlSig (bytesOf "<HEAD"),
    SniffSig.htmlSig (bytesOf "<SCRIPT"),
    SniffSig.htmlSig (bytesOf "<IFRAME"),
    SniffSig.htmlSig (bytesOf "<H1"),
    SniffSig.htmlSig (bytesOf "<DIV"),
    SniffSig.htmlSig (bytesOf "<FONT"),
    SniffSig.htmlSig (bytesOf "<TABLE"),
    SniffSig.htmlSig (bytesOf "<A"),
    SniffSig.htmlSig (bytesOf "<STYLE"),
    SniffSig.htmlSig (bytesOf "<TITLE"),
    SniffSig.htmlSig (bytesOf "<B"),
    SniffSig.htmlSig (bytesOf "<BODY"),
    SniffSig.htmlSig (bytesOf "<BR"),
    SniffSig.htmlSig (bytesOf "<P"),
    SniffSig.htmlSig (bytesOf "<!--"),
    SniffSig.maskedSig [0xFF, 0xFF, 0xFF, 0xFF, 0xFF] (bytesOf "<?xml") true
      "text/xml; charset=utf-8".toList,
    SniffSig.exactSig (bytesOf "%PDF-") "application/pdf".toList,
    SniffSig.exactSig (bytesOf "%!PS-Adobe-") "application/postscript".toList,
    SniffSig.maskedSig [0xFF, 0xFF, 0x00, 0x00] [0xFE, 0xFF, 0x00, 0x00] false
      "text/plain; charset=utf-16be".toList,
    SniffSig.maskedSig [0xFF, 0xFF, 0x00, 0x00] [0xFF, 0xFE, 0x00, 0x00] false
      "text/plain; charset=utf-16le".toList,
    SniffSig.maskedSig [0xFF, 0xFF, 0xFF, 0x00] [0xEF, 0xBB, 0xBF, 0x00] false
      "text/plain; charset=utf-8".toList,
    SniffSig.exactSig [0x00, 0x00, 0x01, 0x00] "image/x-icon".toList,
    SniffSig.exactSig [0x00, 0x00, 0x02, 0x00] "image/x-icon".toList,
    SniffSig.exactSig (bytesOf "BM") "image/bmp".toList,
    SniffSig.exactSig (bytesOf "GIF87a") "image/gif".toList,
    SniffSig.exactSig (bytesOf "GIF89a") "image/gif".toList,
    SniffSig.maskedSig
      [0xFF, 0xFF, 0xFF, 0xFF, 0x00, 0x00, 0x00, 0x00, 0xFF, 0xFF, 0xFF, 0xFF, 0xFF, 0xFF]
      (bytesOf "RIFF" ++ [0, 0, 0, 0] ++ bytesOf "WEBPVP") false "image/webp".toList,
    SniffSig.exactSig ([0x89] ++ bytesOf "PNG" ++ [0x0D, 0x0A, 0x1A, 0x0A]) "image/png".toList,
    SniffSig.exactSig [0xFF, 0xD8, 0xFF] "image/jpeg".toList,
    SniffSig.maskedSig [0xFF, 0xFF, 0xFF, 0xFF, 0x00, 0x00, 0x00, 0x00, 0xFF, 0xFF, 0xFF, 0xFF]
      (bytesOf "FORM" ++ [0, 0, 0, 0] ++ bytesOf "AIFF") false "audio/aiff".toList,
    SniffSig.maskedSig [0xFF, 0xFF, 0xFF] (bytesOf "ID3") false "audio/mpeg".toList,
    SniffSig.maskedSig [0xFF, 0xFF, 0xFF, 0xFF, 0xFF] (bytesOf "OggS" ++ [0]) false
      "application/ogg".toList,
    SniffSig.maskedSig [0xFF, 0xFF, 0xFF, 0xFF, 0xFF, 0xFF, 0xFF, 0xFF]
      (bytesOf "MThd" ++ [0, 0, 0, 6]) false "audio/midi".toList,
    SniffSig.maskedSig [0xFF, 0xFF, 0xFF, 0xFF, 0x00, 0x00, 0x00, 0x00, 0xFF, 0xFF, 0xFF, 0xFF]
      (bytesOf "RIFF" ++ [0, 0, 0, 0] ++ bytesOf "AVI ") false "video/avi".toList,
    SniffSig.maskedSig [0xFF, 0xFF, 0xFF, 0xFF, 0x00, 0x00, 0x00, 0x00, 0xFF, 0xFF, 0xFF, 0xFF]
      (bytesOf "RIFF" ++ [0, 0, 0, 0] ++ bytesOf "WAVE") false "audio/wave".toList,
    SniffSig.mp4Sig,
    SniffSig.exactSig [0x1A, 0x45, 0xDF, 0xA3] "video/webm".toList,
    SniffSig.maskedSig (List.replicate 34 0x00 ++ [0xFF, 0xFF])
      (List.replicate 34 0x00 ++ bytesOf "LP") false "application/vnd.ms-fontobject".toList,
    SniffSig.exactSig [0x00, 0x01, 0x00, 0x00] "font/ttf".toList,
    SniffSig.exactSig (bytesOf "OTTO") "font/otf".toList,
    SniffSig.exactSig (bytesOf "ttcf") "font/collection".toList,
    SniffSig.exactSig (bytesOf "wOFF") "font/woff".toList,
    SniffSig.exactSig (bytesOf "wOF2") "font/woff2".toList,
    SniffSig.exactSig [0x1F, 0x8B, 0x08] "application/x-gzip".toList,
    SniffSig.exactSig (bytesOf "PK" ++ [0x03, 0x04]) "application/zip".toList,
    SniffSig.exactSig (bytesOf "Rar!" ++ [0x1A, 0x07, 0x00]) "application/x-rar-compressed".toList,
    SniffSig.exactSig (bytesOf "Rar!" ++ [0x1A, 0x07, 0x01, 0x00])
      "application/x-rar-compressed".toList,
    SniffSig.exactSig [0x00, 0x61, 0x73, 0x6D] "application/wasm".toList,
    SniffSig.textSig ]

/-- The index of the first non-whitespace byte of the data. -/
def firstNonWS : List Nat → Nat
  | [] => 0
  | b :: bs => if isWS b then firstNonWS bs + 1 else 0

/-- The loop of `DetectContentType` over the signatures: the first match wins,
and `application/octet-stream` is the fallback. -/
def matchSignatures : List SniffSig → List Nat → Nat → Str
  | [], _, _ => "application/octet-stream".toList
  | sig :: rest, data, f =>
    let ct := sig.sigMatch data f
    if ct != [] then ct else matchSignatures rest data f

/-- Model of `http.DetectContentType`: at most `sniffLen` bytes are looked at. -/
def DetectContentType (data : Str) : Str :=
  let data1 := (data.take sniffLen).map Char.toNat
  matchSignatures sniffSignatures data1 (firstNonWS data1)

/-! ## net/http: the server's response writer (server.go) -/

/-- Model of `bodyAllowedForStatus`. -/
def bodyAllowedForStatus (status : Nat) : Bool :=
  if 100 ≤ status && status ≤ 199 then false
  else if status == 204 then false
  else if status == 304 then false
  else true

/-- The fields of net/http's `response`, the `ResponseWriter` a handler is given:
the request method, the header map the handler sets (`handlerHeader`), whether
`WriteHeader` has been called and with what status, the snapshot of the header
map taken at that call (`cw.header`), and the bytes accepted by `Write` and
held in the buffer `w.w`. -/
structure response where
  reqMethod : Str
  handlerHeader : Header
  wroteHeader : Bool
  status : Nat
  cwHeader : Header
  written : Str

/-- The response net/http creates for a request before it calls the handler. -/
def newResponse (r : Request) : response :=
  { reqMethod := r.Method, handlerHeader := fun _ => [], wroteHeader := false, status := 0,
    cwHeader := fun _ => [], written := [] }

/-- The header names whose setting changes how the server frames the body;
a handler that sets one of them is outside this model. -/
def framingHeaders : List Str :=
  ["Content-Length".toList, "Transfer-Encoding".toList, "Trailer".toList, "Connection".toList]

/-- `w.Header().Set(k, v)` on the server's response; `none` for a framing
header, which this model leaves out. A header set after `WriteHeader` changes
`handlerHeader` only, not the snapshot that is sent. -/
def response.HeaderSet (k v : Str) (w : response) : Option response :=
  if framingHeaders.contains (CanonicalMIMEHeaderKey k) then none
  else some { w with
    handlerHeader := fun k1 => if k1 = CanonicalMIMEHeaderKey k then [v] else w.handlerHeader k1 }

/-- Model of `(*response).WriteHeader` for a final status code: the first call
fixes the status and snapshots the header map, a later call is ignored. `none`
for the codes this model leaves out: below 200 (interim responses and the
protocol switch) and above 999 (a panic). -/
def response.WriteHeader (code : Nat) (w : response) : Option response :=
  if code < 200 || 999 < code then none
  else if w.wroteHeader then some w
  else some { w with wroteHeader := true, status := code, cwHeader := w.handlerHeader }

/-- Model of `(*response).Write`: `WriteHeader(200)` first when no status has
been written; empty data and data for a status that allows no body are not
buffered. -/
def response.Write (p : Str) (w : response) : Option response :=
  match (if !w.wroteHeader then w.WriteHeader 200 else some w) with
  | none => none
  | some w1 =>
    if p.length == 0 then some w1
    else if !bodyAllowedForStatus w1.status then some w1
    else some { w1 with written := w1.written ++ p }

/-- The response writer net/http hands to the registered handler. The state is
`none` once the handler has left the modelled fragment. -/
def serverWriter : ResponseWriter (Option response) :=
  { HeaderSet := fun k v s => s.bind (response.HeaderSet k v)
    WriteHeader := fun code s => s.bind (response.WriteHeader code)
    Write := fun p s => s.bind (response.Write p) }

/-- What the client is sent: the status, the header block (without the `Date`,
`Content-Length` and `Connection` lines the server adds on its own) and the
body. -/
structure WireResponse where
  status : Nat
  header : Header
  body : Str

/-- Model of `(*chunkWriter).writeHeader(p)` as far as the header block goes,
where `p` is the buffered body: for a status that allows a body, a response
without `Content-Type` and without a non-blank `Content-Encoding` whose body
is not empty gets `Content-Type: DetectContentType(p)`; a 304 loses its
`Content-Type`. This runs before the status line and the header block are
written. (`Transfer-Encoding`, which also switches sniffing off, cannot be set
in this model.) -/
def response.cwWriteHeader (w : response) (p : Str) : Header :=
  let header := w.cwHeader
  if bodyAllowedForStatus w.status then
    let haveType := header "Content-Type".toList != []
    let hasCE := (Header.Get header "Content-Encoding".toList).length > 0
    if !hasCE && !haveType && p.length > 0 then
      fun k1 => if k1 = "Content-Type".toList then [DetectContentType p] else header k1
    else header
  else if w.status == 304 then
    fun k1 => if k1 = "Content-Type".toList then [] else header k1
  else header

/-- Model of `(*response).finishRequest`: a handler that wrote no status gets
`WriteHeader(200)`, the buffer is flushed through the chunk writer, which
writes the header block first and the body after it; the body of a response to
`HEAD` is dropped. -/
def response.finishRequest (w : response) : WireResponse :=
  let w1 : response :=
    if !w.wroteHeader then
      { w with wroteHeader := true, status := 200, cwHeader := w.handlerHeader }
    else w
  { status := w1.status
    header := w1.cwWriteHeader w1.written
    body := if w1.reqMethod == "HEAD".toList then [] else w1.written }

/-- The server's handling of one request with the registered handler `h`:
create the response, call `h.ServeHTTP`, finish the request. -/
def serveRequest (h : Handler (Option response)) (r : Request) : Option WireResponse :=
  (h serverWriter r (some (newResponse r))).map response.finishRequest

/-! ## Definitions used to state the properties -/

/-- The byte `canonLoop` writes for the byte `c` under the flag `upper`. -/
def canonByte (upper : Bool) (c : Char) : Char :=
  if upper && isLowerByte c then Char.ofNat (c.toNat - toLower)
  else if !upper && isUpperByte c then Char.ofNat (c.toNat + toLower)
  else c

/-- A variable that is unset or set to the empty string. -/
def unsetOrEmpty (env : Env) (key : Str) : Prop := env key = none ∨ env key = some []

/-- The string `a` without one trailing slash. -/
def dropTrailingSlash (a : Str) : Str := if hasSuffixSlash a then a.dropLast else a

/-- The string `b` without one leading slash. -/
def dropLeadingSlash (b : Str) : Str := if hasPrefixSlash b then b.drop 1 else b

/-- The join `singleJoiningSlash` computes, written out: `a` without one
trailing slash, a slash, `b` without one leading slash. Slashes beyond the one
dropped on either side stay. -/
def joinBoundary (a b : Str) : Str := dropTrailingSlash a ++ '/' :: dropLeadingSlash b

/-- The string `a` without its trailing slashes. -/
def trimTrailingSlashes (a : Str) : Str :=
  (a.reverse.dropWhile (fun c => c == '/')).reverse

/-- The string `b` without its leading slashes. -/
def trimLeadingSlashes (b : Str) : Str := b.dropWhile (fun c => c == '/')

/-- The string `a` followed by `b` with exactly one slash at the join: the
slashes at the boundary, however many on either side, are collapsed into one. -/
def joinExactlyOneSlash (a b : Str) : Str := trimTrailingSlashes a ++ '/' :: trimLeadingSlashes b

/-- Whether `a` ends in two slashes or more. -/
def endsInTwoSlashes (a : Str) : Bool := hasSuffixSlash a && hasSuffixSlash a.dropLast

/-- Whether `b` starts with two slashes or more. -/
def startsWithTwoSlashes (b : Str) : Bool := hasPrefixSlash b && hasPrefixSlash (b.drop 1)

/-! ## Concrete inputs -/

/-- A header map given by its entries (canonical key, values). -/
def headerOf : List (Str × List Str) → Header
  | [], _ => []
  | (k, vs) :: rest, key => if key = k then vs else headerOf rest key

/-- The request `GET /api/v1/items?x=1` from a client at 203.0.113.7, sent to
`gateway.test:8080`, with the given header map. -/
def getItems (h : Header) : Request :=
  { Method := "GET".toList
    URL := { Scheme := [], Host := [], Path := "/api/v1/items".toList, RawPath := [],
             RawQuery := "x=1".toList }
    Host := "gateway.test:8080".toList
    Header := h
    Body := []
    RemoteAddr := "203.0.113.7:50000".toList }

/-- An environment given by its variables. -/
def envOf : List (Str × Str) → Env
  | [], _ => none
  | (k, v) :: rest, key => if key = k then some v else envOf rest key

/-- The environment of the spec's scenarios. -/
def scenarioEnv : Env :=
  envOf [("RP_TARGET_URL".toList, "http://origin.test:9000/base".toList),
         ("RP_PORT".toList, ":8080".toList),
         ("RP_HEADER_KEY".toList, "X-ContentKey".toList),
         ("RP_HEADER_KEY_VAL".toList, "OK".toList)]

/-- An environment that configures another header name and secret, and a bare
port number. -/
def apiKeyEnv : Env :=
  envOf [("RP_TARGET_URL".toList, "http://origin.test:9000/base".toList),
         ("RP_PORT".toList, "8080".toList),
         ("RP_HEADER_KEY".toList, "X-Api-Key".toList),
         ("RP_HEADER_KEY_VAL".toList, "secret".toList)]

/-- The parsed form of `http://origin.test:9000/base`. -/
def originURL : URL :=
  { Scheme := "http".toList, Host := "origin.test:9000".toList, Path := "/base".toList,
    RawPath := [], RawQuery := [] }

/-- The parsed form of `http://origin.test:9000/base//`. -/
def originSlashesURL : URL :=
  { Scheme := "http".toList, Host := "origin.test:9000".toList, Path := "/base//".toList,
    RawPath := [], RawQuery := [] }

/-- A `url.Parse` that knows the scenario's target and rejects the rest. -/
def parseOrigin (s : Str) : Option URL :=
  if s = "http://origin.test:9000/base".toList then some originURL else none

/-- An `EscapedPath` for URLs whose path needs no escaping. -/
def plainPath (u : URL) : Str := if u.RawPath = [] then u.Path else u.RawPath


/-- The server `main` sets up in the scenario environment. -/
def scenarioServer : Server (List Call) :=
  { globals := { envTarget := "http://origin.test:9000/base".toList, envPort := ":8080".toList,
                 envKey := "X-ContentKey".toList, envKeyVal := "OK".toList }
    target := originURL
    pattern := "/".toList
    handler :=
      authMidWare (NewSingleHostReverseProxy (logLib parseOrigin plainPath) originURL).ServeHTTP
    addr := ":8080".toList }

/-- The server `main` sets up in the environment `apiKeyEnv`. -/
def apiKeyServer : Server (List Call) :=
  { globals := { envTarget := "http://origin.test:9000/base".toList, envPort := "8080".toList,
                 envKey := "X-Api-Key".toList, envKeyVal := "secret".toList }
    target := originURL
    pattern := "/".toList
    handler :=
      authMidWare (NewSingleHostReverseProxy (logLib parseOrigin plainPath) originURL).ServeHTTP
    addr := "8080".toList }

/-! ## The middleware -/

/-- The canonical form of the header name the middleware looks up. -/
theorem canonical_XContentKey :
    CanonicalMIMEHeaderKey "X-ContentKey".toList = "X-Contentkey".toList := by
  decide

/-- `Header.Get` returns the expected value exactly when the first value stored
under the canonical key is that value. -/
theorem get_eq_OK_iff (h : Header) :
    Header.Get h "X-ContentKey".toList = "OK".toList ↔
      (h "X-Contentkey".toList).head? = some "OK".toList := by
  unfold Header.Get
  rw [canonical_XContentKey]
  cases h "X-Contentkey".toList with
  | nil => simp
  | cons v vs => simp

/-- The matching branch of `authMidWare`. -/
theorem authMidWare_of_match {σ : Type} (next : Handler σ) (w : ResponseWriter σ)
    (r : Request) (s : σ) (h : Header.Get r.Header "X-ContentKey".toList = "OK".toList) :
    authMidWare next w r s = next w r s := by
  simp only [authMidWare, h, beq_self_eq_true, if_true]

/-- The other branch of `authMidWare`. -/
theorem authMidWare_of_mismatch {σ : Type} (next : Handler σ) (w : ResponseWriter σ)
    (r : Request) (s : σ) (h : Header.Get r.Header "X-ContentKey".toList ≠ "OK".toList) :
    authMidWare next w r s =
      w.Write "unauthorized request".toList (w.WriteHeader StatusUnauthorized s) := by
  simp only [authMidWare, beq_iff_eq, h, if_false]

/-- The log of `authMidWare` in front of the proxy handler: the outbound request
is forwarded on a match, and 401 with the fixed body is written otherwise. -/
theorem log_authMidWare_proxy (p : Str → Option URL) (e : URL → Str) (target : URL)
    (r : Request) :
    authMidWare (NewSingleHostReverseProxy (logLib p e) target).ServeHTTP logWriter r [] =
      if Header.Get r.Header "X-ContentKey".toList = "OK".toList then
        [Call.forward (rewriteRequestURL e r target)]
      else
        [Call.writeHeader StatusUnauthorized, Call.write "unauthorized request".toList] := by
  by_cases h : Header.Get r.Header "X-ContentKey".toList = "OK".toList
  · rw [authMidWare_of_match _ _ _ _ h, if_pos h]
    rfl
  · rw [authMidWare_of_mismatch _ _ _ _ h, if_neg h]
    rfl

/-- The decision of `authMidWare` in front of the proxy handler. -/
theorem delegates_authMidWare_proxy (p : Str → Option URL) (e : URL → Str) (target : URL)
    (r : Request) :
    delegates (authMidWare (NewSingleHostReverseProxy (logLib p e) target).ServeHTTP) r =
      decide (Header.Get r.Header "X-ContentKey".toList = "OK".toList) := by
  unfold delegates
  rw [log_authMidWare_proxy]
  by_cases h : Header.Get r.Header "X-ContentKey".toList = "OK".toList
  · rw [if_pos h, decide_eq_true h]
    rfl
  · rw [if_neg h, decide_eq_false h]
    rfl

/-- What a run that reaches `ListenAndServe` has set up. -/
theorem run_eq_ok {σ : Type} (lib : StdLib σ) (env : Env) (srv : Server σ)
    (h : run lib env = Except.ok srv) :
    ∃ target, lib.urlParse (Getenv env "RP_TARGET_URL".toList) = some target ∧
      srv.target = target ∧
      srv.handler = authMidWare (NewSingleHostReverseProxy lib target).ServeHTTP ∧
      srv.addr = Getenv env "RP_PORT".toList ∧
      srv.globals.envTarget = Getenv env "RP_TARGET_URL".toList ∧
      srv.globals.envPort = Getenv env "RP_PORT".toList ∧
      srv.globals.envKey = Getenv env "RP_HEADER_KEY".toList ∧
      srv.globals.envKeyVal = Getenv env "RP_HEADER_KEY_VAL".toList ∧
      Getenv env "RP_TARGET_URL".toList ≠ [] ∧ Getenv env "RP_PORT".toList ≠ [] ∧
      Getenv env "RP_HEADER_KEY".toList ≠ [] ∧ Getenv env "RP_HEADER_KEY_VAL".toList ≠ [] := by
  unfold run init at h
  simp only at h
  split at h
  · exact absurd h (by simp)
  · rename_i g hg
    split at hg
    · exact absurd hg (by simp)
    · rename_i hne
      injection hg with hg
      subst hg
      unfold main at h
      simp only at h
      split at h
      · exact absurd h (by simp)
      · rename_i target ht
        injection h with h
        subst h
        refine ⟨target, ht, rfl, rfl, rfl, rfl, rfl, rfl, rfl, ?_⟩
        simp only [Bool.or_eq_true, beq_iff_eq, List.length_eq_zero, not_or] at hne
        exact ⟨hne.1.1.2, hne.1.1.1, hne.1.2, hne.2⟩

/-- The scenario environment starts the scenario server. -/
theorem run_scenarioEnv :
    run (logLib parseOrigin plainPath) scenarioEnv = Except.ok scenarioServer := by
  rfl

/-- The environment `apiKeyEnv` starts the server `apiKeyServer`. -/
theorem run_apiKeyEnv :
    run (logLib parseOrigin plainPath) apiKeyEnv = Except.ok apiKeyServer := by
  rfl

/-- C1 (evaluation at the failing input): with `RP_HEADER_KEY=X-Api-Key` and
`RP_HEADER_KEY_VAL=secret`, a request whose `X-Api-Key` header equals the
configured secret is not delegated, and a request that lacks the configured
header but carries `X-ContentKey: OK` is delegated: the middleware does not
consult the configured name and value. -/
theorem configured_header_not_consulted :
    run (logLib parseOrigin plainPath) apiKeyEnv = Except.ok apiKeyServer ∧
    apiKeyServer.globals.envKey = "X-Api-Key".toList ∧
    apiKeyServer.globals.envKeyVal = "secret".toList ∧
    Header.Get (getItems (headerOf [("X-Api-Key".toList, ["secret".toList])])).Header
        apiKeyServer.globals.envKey = apiKeyServer.globals.envKeyVal ∧
    delegates apiKeyServer.handler
        (getItems (headerOf [("X-Api-Key".toList, ["secret".toList])])) = false ∧
    Header.Get (getItems (headerOf [("X-Contentkey".toList, ["OK".toList])])).Header
        apiKeyServer.globals.envKey ≠ apiKeyServer.globals.envKeyVal ∧
    delegates apiKeyServer.handler
        (getItems (headerOf [("X-Contentkey".toList, ["OK".toList])])) = true := by
  refine ⟨rfl, rfl, rfl, ?_, ?_, ?_, ?_⟩
  · decide
  · decide
  · decide
  · decide

/-- The mismatch branch: for every request whose `X-ContentKey` header is absent
or whose first value is not `OK`, `authMidWare` is, whatever the downstream
handler, the call `WriteHeader(401)` followed by the call
`Write("unauthorized request")`, and no invocation of the downstream handler. -/
theorem authMidWare_unauthorized (r : Request)
    (h : (r.Header (CanonicalMIMEHeaderKey "X-ContentKey".toList)).head? ≠ some "OK".toList) :
    (∀ (σ : Type) (next : Handler σ) (w : ResponseWriter σ) (s : σ),
      authMidWare next w r s = w.Write "unauthorized request".toList (w.WriteHeader 401 s)) ∧
    authMidWare logNext logWriter r [] =
      [Call.writeHeader 401, Call.write "unauthorized request".toList] ∧
    delegates (authMidWare logNext) r = false := by
  rw [canonical_XContentKey] at h
  have hne : Header.Get r.Header "X-ContentKey".toList ≠ "OK".toList :=
    fun hc => h ((get_eq_OK_iff r.Header).mp hc)
  refine ⟨fun σ next w s => authMidWare_of_mismatch next w r s hne, ?_, ?_⟩
  · rw [authMidWare_of_mismatch _ _ _ _ hne]
    rfl
  · unfold delegates
    rw [authMidWare_of_mismatch _ _ _ _ hne]
    rfl

/-- The matching branch: for every request whose first `X-ContentKey` value is
`OK`, `authMidWare next` is `next` itself on the same writer, request and
state; its call log is the single invocation of the downstream handler with
the request as received. -/
theorem authMidWare_authorized (r : Request)
    (h : (r.Header (CanonicalMIMEHeaderKey "X-ContentKey".toList)).head? = some "OK".toList) :
    (∀ (σ : Type) (next : Handler σ) (w : ResponseWriter σ) (s : σ),
      authMidWare next w r s = next w r s) ∧
    authMidWare logNext logWriter r [] = [Call.serveHTTP r] := by
  rw [canonical_XContentKey] at h
  have hok : Header.Get r.Header "X-ContentKey".toList = "OK".toList :=
    (get_eq_OK_iff r.Header).mpr h
  refine ⟨fun σ next w s => authMidWare_of_match next w r s hok, ?_⟩
  rw [authMidWare_of_match _ _ _ _ hok]
  rfl

/-- C2 (evaluation at the failing input): with `RP_HEADER_KEY=X-Api-Key` and
`RP_HEADER_KEY_VAL=secret`, the request `GET /api/v1/items?x=1` that carries no
`X-Api-Key` header, only `X-ContentKey: OK`, is not answered 401: the handler
`main` registers forwards it to the origin and writes nothing itself. -/
theorem absent_configured_header_delegated :
    run (logLib parseOrigin plainPath) apiKeyEnv = Except.ok apiKeyServer ∧
    (getItems (headerOf [("X-Contentkey".toList, ["OK".toList])])).Header
        (CanonicalMIMEHeaderKey apiKeyServer.globals.envKey) = [] ∧
    apiKeyServer.handler logWriter
        (getItems (headerOf [("X-Contentkey".toList, ["OK".toList])])) [] =
      [Call.forward (rewriteRequestURL plainPath
        (getItems (headerOf [("X-Contentkey".toList, ["OK".toList])])) originURL)] := by
  refine ⟨rfl, ?_, rfl⟩
  decide

/-- C3 (evaluation at the failing input): with `RP_HEADER_KEY=X-Api-Key` and
`RP_HEADER_KEY_VAL=secret`, the request `GET /api/v1/items?x=1` whose first
`X-Api-Key` value is `secret` is not handed to the proxy handler: the handler
`main` registers calls `WriteHeader(401)` and `Write("unauthorized request")`
and nothing else. -/
theorem configured_match_rejected :
    run (logLib parseOrigin plainPath) apiKeyEnv = Except.ok apiKeyServer ∧
    ((getItems (headerOf [("X-Api-Key".toList, ["secret".toList])])).Header
        (CanonicalMIMEHeaderKey apiKeyServer.globals.envKey)).head? =
      some apiKeyServer.globals.envKeyVal ∧
    apiKeyServer.handler logWriter
        (getItems (headerOf [("X-Api-Key".toList, ["secret".toList])])) [] =
      [Call.writeHeader 401, Call.write "unauthorized request".toList] := by
  refine ⟨rfl, ?_, rfl⟩
  decide

/-- C10: the decision of the handler `main` registers depends on the first
`X-ContentKey` value alone: two runs, in any two environments and on any two
requests, that agree on that value decide alike, and `X-ContentKey: OK` is
always delegated. -/
theorem decision_depends_on_XContentKey_only (p1 p2 : Str → Option URL) (e1 e2 : URL → Str)
    (env1 env2 : Env) (srv1 srv2 : Server (List Call)) (r1 r2 : Request)
    (h1 : run (logLib p1 e1) env1 = Except.ok srv1)
    (h2 : run (logLib p2 e2) env2 = Except.ok srv2)
    (hv : Header.Get r1.Header "X-ContentKey".toList = Header.Get r2.Header "X-ContentKey".toList) :
    delegates srv1.handler r1 = delegates srv2.handler r2 ∧
    (Header.Get r1.Header "X-ContentKey".toList = "OK".toList →
      delegates srv1.handler r1 = true) := by
  obtain ⟨t1, -, -, hh1, -⟩ := run_eq_ok _ _ _ h1
  obtain ⟨t2, -, -, hh2, -⟩ := run_eq_ok _ _ _ h2
  rw [hh1, hh2, delegates_authMidWare_proxy, delegates_authMidWare_proxy, hv]
  exact ⟨rfl, fun hok => decide_eq_true hok⟩

/-- C10 at two environments that configure different header names and secrets
and two requests that differ in method, path, query, body, remote address and
other headers but agree on `X-ContentKey: OK`. -/
theorem decision_depends_on_XContentKey_only_witness :
    delegates scenarioServer.handler
        (getItems (headerOf [("X-Contentkey".toList, ["OK".toList])])) =
      delegates apiKeyServer.handler
        { Method := "POST".toList
          URL := { Scheme := [], Host := [], Path := "/other".toList, RawPath := [],
                   RawQuery := [] }
          Host := "elsewhere.test".toList
          Header := headerOf [("Accept".toList, ["*/*".toList]),
                              ("X-Contentkey".toList, ["OK".toList, "second".toList])]
          Body := "payload".toList
          RemoteAddr := "198.51.100.9:40000".toList } :=
  (decision_depends_on_XContentKey_only parseOrigin parseOrigin plainPath plainPath scenarioEnv
    apiKeyEnv scenarioServer apiKeyServer _ _ run_scenarioEnv run_apiKeyEnv (by decide)).1

/-! ## Header names up to letter case -/

/-- `Char.ofNat` is the identity on byte values. -/
theorem toNat_ofNat_of_lt (n : Nat) (h : n < 55296) : (Char.ofNat n).toNat = n := by
  unfold Char.ofNat
  rw [dif_pos (Or.inl h)]
  rfl

/-- Characters with the same code are equal. -/
theorem char_eq_of_toNat_eq {c d : Char} (h : c.toNat = d.toNat) : c = d := by
  rw [← Char.ofNat_toNat c, ← Char.ofNat_toNat d, h]

/-- One round of `canonLoop`. -/
theorem canonLoop_cons (upper : Bool) (c : Char) (cs : Str) :
    canonLoop upper (c :: cs) = canonByte upper c :: canonLoop (canonByte upper c == '-') cs :=
  rfl

/-- Two bytes with the same fold are equal or an upper-case letter and its
lower-case form. -/
theorem foldByte_eq_cases {c d : Char} (h : foldByte c = foldByte d) :
    c = d ∨ (65 ≤ c.toNat ∧ c.toNat ≤ 90 ∧ d.toNat = c.toNat + 32) ∨
      (65 ≤ d.toNat ∧ d.toNat ≤ 90 ∧ c.toNat = d.toNat + 32) := by
  unfold foldByte isUpperByte toLower at h
  by_cases hc : 65 ≤ c.toNat ∧ c.toNat ≤ 90
  · by_cases hd : 65 ≤ d.toNat ∧ d.toNat ≤ 90
    · simp only [hc.1, hc.2, hd.1, hd.2, decide_True, Bool.and_self, if_true] at h
      have h2 := congrArg Char.toNat h
      rw [toNat_ofNat_of_lt _ (by omega), toNat_ofNat_of_lt _ (by omega)] at h2
      exact Or.inl (char_eq_of_toNat_eq (by omega))
    · have hd2 : (decide (65 ≤ d.toNat) && decide (d.toNat ≤ 90)) = false := by
        simpa using fun h1 => by omega
      simp only [hc.1, hc.2, hd2, decide_True, Bool.and_self, if_true, if_false] at h
      have h2 := congrArg Char.toNat h
      rw [toNat_ofNat_of_lt _ (by omega)] at h2
      exact Or.inr (Or.inl ⟨hc.1, hc.2, h2.symm⟩)
  · have hc2 : (decide (65 ≤ c.toNat) && decide (c.toNat ≤ 90)) = false := by
      simpa using fun h1 => by omega
    by_cases hd : 65 ≤ d.toNat ∧ d.toNat ≤ 90
    · simp only [hc2, hd.1, hd.2, decide_True, Bool.and_self, if_true, if_false] at h
      have h2 := congrArg Char.toNat h
      rw [toNat_ofNat_of_lt _ (by omega)] at h2
      exact Or.inr (Or.inr ⟨hd.1, hd.2, h2⟩)
    · have hd2 : (decide (65 ≤ d.toNat) && decide (d.toNat ≤ 90)) = false := by
        simpa using fun h1 => by omega
      simp only [hc2, hd2, if_false] at h
      exact Or.inl h

/-- An upper-case letter and its lower-case form are canonicalised alike. -/
theorem canonByte_upper_lower (upper : Bool) {c d : Char} (h1 : 65 ≤ c.toNat)
    (h2 : c.toNat ≤ 90) (h3 : d.toNat = c.toNat + 32) : canonByte upper c = canonByte upper d := by
  have hcl : isLowerByte c = false := by
    unfold isLowerByte
    simpa using fun h => by omega
  have hcu : isUpperByte c = true := by
    unfold isUpperByte
    simpa using ⟨h1, h2⟩
  have hdl : isLowerByte d = true := by
    unfold isLowerByte
    simpa using ⟨by omega, by omega⟩
  have hdu : isUpperByte d = false := by
    unfold isUpperByte
    simpa using fun h => by omega
  unfold canonByte toLower
  cases upper
  · simp only [hcl, hcu, hdl, hdu, Bool.false_and, Bool.not_false, Bool.and_self, if_true,
      if_false, Bool.and_false, Bool.false_eq_true]
    rw [← h3, Char.ofNat_toNat]
  · simp only [hcl, hcu, hdl, hdu, Bool.true_and, Bool.not_true, Bool.false_and, if_true,
      if_false, Bool.false_eq_true]
    rw [h3, Nat.add_sub_cancel, Char.ofNat_toNat]

/-- Bytes with the same fold are canonicalised alike. -/
theorem canonByte_congr (upper : Bool) {c d : Char} (h : foldByte c = foldByte d) :
    canonByte upper c = canonByte upper d := by
  rcases foldByte_eq_cases h with h | ⟨h1, h2, h3⟩ | ⟨h1, h2, h3⟩
  · rw [h]
  · exact canonByte_upper_lower upper h1 h2 h3
  · exact (canonByte_upper_lower upper h1 h2 h3).symm

/-- Keys with the same letters are canonicalised alike. -/
theorem canonLoop_congr : ∀ (upper : Bool) (a b : Str), sameLetters a b →
    canonLoop upper a = canonLoop upper b
  | _, [], [], _ => rfl
  | _, [], _ :: _, h => by simp [sameLetters] at h
  | _, _ :: _, [], h => by simp [sameLetters] at h
  | upper, c :: cs, d :: ds, h => by
    unfold sameLetters at h
    simp only [List.map_cons, List.cons.injEq] at h
    rw [canonLoop_cons, canonLoop_cons, canonByte_congr upper h.1,
      canonLoop_congr _ cs ds h.2]

/-- Bytes with the same fold are both token bytes or both not. -/
theorem validHeaderFieldByte_congr {c d : Char} (h : foldByte c = foldByte d) :
    validHeaderFieldByte c = validHeaderFieldByte d := by
  have key : ∀ {x y : Char}, 65 ≤ x.toNat → x.toNat ≤ 90 → y.toNat = x.toNat + 32 →
      validHeaderFieldByte x = validHeaderFieldByte y := by
    intro x y h1 h2 h3
    have hx : isUpperByte x = true := by
      unfold isUpperByte
      simpa using ⟨h1, h2⟩
    have hy : isLowerByte y = true := by
      unfold isLowerByte
      simpa using ⟨by omega, by omega⟩
    unfold validHeaderFieldByte
    rw [hx, hy]
    simp only [Bool.or_true, Bool.true_or]
  rcases foldByte_eq_cases h with h | ⟨h1, h2, h3⟩ | ⟨h1, h2, h3⟩
  · rw [h]
  · exact key h1 h2 h3
  · exact (key h1 h2 h3).symm

/-- Keys with the same letters are both made of token bytes or both not. -/
theorem all_valid_congr : ∀ (a b : Str), sameLetters a b →
    a.all validHeaderFieldByte = b.all validHeaderFieldByte
  | [], [], _ => rfl
  | [], _ :: _, h => by simp [sameLetters] at h
  | _ :: _, [], h => by simp [sameLetters] at h
  | c :: cs, d :: ds, h => by
    unfold sameLetters at h
    simp only [List.map_cons, List.cons.injEq] at h
    rw [List.all_cons, List.all_cons, validHeaderFieldByte_congr h.1, all_valid_congr cs ds h.2]

/-- A non-empty key made of token bytes is canonicalised. -/
theorem canonicalMIMEHeaderKey_of_valid (a : Str) (hne : a ≠ [])
    (h : a.all validHeaderFieldByte = true) :
    canonicalMIMEHeaderKey a = (canonLoop true a, true) := by
  have h0 : (a.length == 0) = false := by
    cases a with
    | nil => exact absurd rfl hne
    | cons c cs => rfl
  have h1 : a.any (fun c => !validHeaderFieldByte c && c != ' ') = false := by
    rw [List.any_eq_false]
    intro c hc
    rw [List.all_eq_true] at h
    simp [h c hc]
  have h2 : a.any (fun c => !validHeaderFieldByte c) = false := by
    rw [List.any_eq_false]
    intro c hc
    rw [List.all_eq_true] at h
    simp [h c hc]
  unfold canonicalMIMEHeaderKey
  rw [h0, h1, h2]
  rfl

/-- The server stores a field sent under any letter-casing of `X-ContentKey`
under the key that `Header.Get("X-ContentKey")` looks up. -/
theorem canonicalMIMEHeaderKey_of_sameLetters (name : Str)
    (h : sameLetters name "X-ContentKey".toList) :
    canonicalMIMEHeaderKey name = (CanonicalMIMEHeaderKey "X-ContentKey".toList, true) := by
  have hv : name.all validHeaderFieldByte = true := by
    rw [all_valid_congr _ _ h]
    decide
  have hne : name ≠ [] := by
    intro hnil
    rw [hnil] at h
    exact absurd h (by unfold sameLetters; decide)
  rw [canonicalMIMEHeaderKey_of_valid name hne hv, canonLoop_congr true _ _ h]
  decide

/-- Storing a field does not depend on the letter-casing of the name
`X-ContentKey`. -/
theorem storeField_sameLetters (m : Header) (name v : Str)
    (h : sameLetters name "X-ContentKey".toList) :
    storeField m name v = storeField m "X-ContentKey".toList v := by
  have h0 : sameLetters "X-ContentKey".toList "X-ContentKey".toList := rfl
  unfold storeField
  rw [canonicalMIMEHeaderKey_of_sameLetters name h, canonicalMIMEHeaderKey_of_sameLetters _ h0]

/-- Storing the fields of a request does not depend on the letter-casing of
the name `X-ContentKey`. -/
theorem storeFields_sameLetters (name v : Str) (post : List (Str × Str))
    (h : sameLetters name "X-ContentKey".toList) : ∀ (pre : List (Str × Str)) (m : Header),
    storeFields m (pre ++ (name, v) :: post) =
      storeFields m (pre ++ ("X-ContentKey".toList, v) :: post)
  | [], m => by
    simp only [List.nil_append, storeFields, storeField_sameLetters m name v h]
  | (k, x) :: pre, m => by
    simp only [List.cons_append, storeFields]
    cases storeField m k x with
    | none => rfl
    | some m1 => exact storeFields_sameLetters name v post h pre m1

/-- The decision of `authMidWare` in front of the logging handler. -/
theorem delegates_authMidWare_logNext (r : Request) :
    delegates (authMidWare logNext) r =
      decide (Header.Get r.Header "X-ContentKey".toList = "OK".toList) := by
  unfold delegates
  by_cases h : Header.Get r.Header "X-ContentKey".toList = "OK".toList
  · rw [authMidWare_of_match _ _ _ _ h, decide_eq_true h]
    rfl
  · rw [authMidWare_of_mismatch _ _ _ _ h, decide_eq_false h]
    rfl

/-- Storing one more field keeps the first value stored under a key. -/
theorem storeField_first (m m1 : Header) (k v key x : Str) (xs : List Str)
    (h : storeField m k v = some m1) (hm : m key = x :: xs) :
    ∃ ys, m1 key = x :: ys := by
  unfold storeField at h
  simp only at h
  split at h
  · exact Option.noConfusion h
  · injection h with h
    rw [← h]
    by_cases hk : key = (canonicalMIMEHeaderKey k).1
    · refine ⟨xs ++ [v], ?_⟩
      simp only [hk, if_true]
      rw [← hk, hm]
      rfl
    · refine ⟨xs, ?_⟩
      simp only [hk, if_false]
      exact hm

/-- Storing further fields keeps the first value stored under a key. -/
theorem storeFields_first (key x : Str) : ∀ (fields : List (Str × Str)) (m m1 : Header)
    (xs : List Str), storeFields m fields = some m1 → m key = x :: xs →
    ∃ ys, m1 key = x :: ys
  | [], m, m1, xs, h, hm => by
    simp only [storeFields, Option.some.injEq] at h
    rw [← h]
    exact ⟨xs, hm⟩
  | (k, v) :: rest, m, m1, xs, h, hm => by
    simp only [storeFields] at h
    cases h2 : storeField m k v with
    | none =>
      rw [h2] at h
      exact Option.noConfusion h
    | some m2 =>
      rw [h2] at h
      obtain ⟨zs, hz⟩ := storeField_first m m2 k v key x xs h2 hm
      exact storeFields_first key x rest m2 m1 zs h hz

/-- Storing a field under another key leaves a key as it is. -/
theorem storeField_other (m m1 : Header) (k v key : Str)
    (h : storeField m k v = some m1) (hk : (canonicalMIMEHeaderKey k).1 ≠ key) :
    m1 key = m key := by
  unfold storeField at h
  simp only at h
  split at h
  · exact Option.noConfusion h
  · injection h with h
    rw [← h]
    exact if_neg (fun hc => hk hc.symm)

/-- Storing fields sent under names with another canonical key leaves a key as it is;
storing a list of fields is storing its parts one after the other. -/
theorem storeFields_append_other (key : Str) : ∀ (pre rest : List (Str × Str)) (m m1 : Header),
    (∀ f ∈ pre, (canonicalMIMEHeaderKey f.1).1 ≠ key) →
    storeFields m (pre ++ rest) = some m1 →
    ∃ m0, m0 key = m key ∧ storeFields m0 rest = some m1
  | [], rest, m, m1, _, h => ⟨m, rfl, h⟩
  | (k, v) :: pre, rest, m, m1, hpre, h => by
    simp only [List.cons_append, storeFields] at h
    cases h2 : storeField m k v with
    | none =>
      rw [h2] at h
      exact Option.noConfusion h
    | some m2 =>
      rw [h2] at h
      have hk : (canonicalMIMEHeaderKey k).1 ≠ key := hpre (k, v) (List.mem_cons_self _ _)
      obtain ⟨m0, h0, hrest⟩ := storeFields_append_other key pre rest m2 m1
        (fun f hf => hpre f (List.mem_cons_of_mem _ hf)) h
      exact ⟨m0, h0.trans (storeField_other m m2 k v key h2 hk), hrest⟩

/-- C4: the lookup of the auth header is case-insensitive in the name and uses
the first value only. (1) Under whatever letter-casing of `X-ContentKey` a
field is sent, the key the server stores it under is the key
`Header.Get("X-ContentKey")` looks up; (2) the header map the server builds,
and with it the decision of `authMidWare`, is the same for every such
letter-casing; (3) when the first field sent under a letter-casing of
`X-ContentKey` has the value `v`, the decision is that of `v` alone, whatever
fields with other names precede it and whatever fields, of that name or
another, follow it; (4) on a header map that stores the values `v :: rest`
under the canonical key, the decision is that of `v` alone. -/
theorem auth_header_lookup :
    (∀ (name : Str), sameLetters name "X-ContentKey".toList →
      canonicalMIMEHeaderKey name = (CanonicalMIMEHeaderKey "X-ContentKey".toList, true)) ∧
    (∀ (name v : Str) (pre post : List (Str × Str)) (r : Request),
      sameLetters name "X-ContentKey".toList →
      storeFields (fun _ => []) (pre ++ (name, v) :: post) =
        storeFields (fun _ => []) (pre ++ ("X-ContentKey".toList, v) :: post) ∧
      (storeFields (fun _ => []) (pre ++ (name, v) :: post)).map
          (fun h => delegates (authMidWare logNext) { r with Header := h }) =
        (storeFields (fun _ => []) (pre ++ ("X-ContentKey".toList, v) :: post)).map
          (fun h => delegates (authMidWare logNext) { r with Header := h })) ∧
    (∀ (name v : Str) (pre later : List (Str × Str)) (m1 : Header) (r : Request),
      sameLetters name "X-ContentKey".toList →
      (∀ f ∈ pre, (canonicalMIMEHeaderKey f.1).1 ≠ CanonicalMIMEHeaderKey "X-ContentKey".toList) →
      storeFields (fun _ => []) (pre ++ (name, v) :: later) = some m1 →
      Header.Get m1 "X-ContentKey".toList = v ∧
      delegates (authMidWare logNext) { r with Header := m1 } = decide (v = "OK".toList)) ∧
    (∀ (r1 r2 : Request) (v : Str) (rest1 rest2 : List Str),
      r1.Header (CanonicalMIMEHeaderKey "X-ContentKey".toList) = v :: rest1 →
      r2.Header (CanonicalMIMEHeaderKey "X-ContentKey".toList) = v :: rest2 →
      delegates (authMidWare logNext) r1 = decide (v = "OK".toList) ∧
      delegates (authMidWare logNext) r1 = delegates (authMidWare logNext) r2) := by
  have hget : ∀ (h : Header) (v : Str) (rest : List Str),
      h (CanonicalMIMEHeaderKey "X-ContentKey".toList) = v :: rest →
      Header.Get h "X-ContentKey".toList = v := by
    intro h v rest hh
    unfold Header.Get
    rw [hh]
  refine ⟨canonicalMIMEHeaderKey_of_sameLetters, ?_, ?_, ?_⟩
  · intro name v pre post r h
    rw [storeFields_sameLetters name v post h pre _]
    exact ⟨rfl, rfl⟩
  · intro name v pre later m1 r h hpre hstore
    obtain ⟨m0, h0, hrest⟩ := storeFields_append_other _ pre _ _ m1 hpre hstore
    simp only [storeFields] at hrest
    cases h2 : storeField m0 name v with
    | none =>
      rw [h2] at hrest
      exact Option.noConfusion hrest
    | some m2 =>
      rw [h2] at hrest
      have hm2 : m2 (CanonicalMIMEHeaderKey "X-ContentKey".toList) = [v] := by
        unfold storeField at h2
        rw [canonicalMIMEHeaderKey_of_sameLetters name h] at h2
        simp only [Bool.not_true, Bool.false_eq_true, if_false, Option.some.injEq] at h2
        rw [← h2]
        simp only [if_true, h0, List.nil_append]
      obtain ⟨ys, hy⟩ := storeFields_first _ v later m2 m1 [] hrest hm2
      have hg := hget m1 v ys hy
      refine ⟨hg, ?_⟩
      rw [delegates_authMidWare_logNext]
      exact congrArg (fun x => decide (x = "OK".toList)) hg
  · intro r1 r2 v rest1 rest2 h1 h2
    rw [delegates_authMidWare_logNext, delegates_authMidWare_logNext, hget r1.Header v rest1 h1,
      hget r2.Header v rest2 h2]
    exact ⟨rfl, rfl⟩

/-- C4 at a request that sends `Accept: */*`, then `x-CONTENTkey: OK`, then
`X-CONTENTKEY: nope`: the first value sent under the name decides, and the
request is delegated. -/
theorem auth_header_lookup_witness :
    (storeFields (fun _ => []) ([("Accept".toList, "*/*".toList)] ++
        ("x-CONTENTkey".toList, "OK".toList) :: [("X-CONTENTKEY".toList, "nope".toList)])).map
      (fun h => delegates (authMidWare logNext) { getItems (headerOf []) with Header := h }) =
    (storeFields (fun _ => []) ([("Accept".toList, "*/*".toList)] ++
        ("X-ContentKey".toList, "OK".toList) :: [("X-CONTENTKEY".toList, "nope".toList)])).map
      (fun h => delegates (authMidWare logNext) { getItems (headerOf []) with Header := h }) ∧
    (storeFields (fun _ => []) ([("Accept".toList, "*/*".toList)] ++
        ("x-CONTENTkey".toList, "OK".toList) :: [("X-CONTENTKEY".toList, "nope".toList)])).map
      (fun h => delegates (authMidWare logNext) { getItems (headerOf []) with Header := h }) =
    some true :=
  ⟨(auth_header_lookup.2.1 _ _ _ _ _ (by unfold sameLetters; decide)).2, by decide⟩

/-! ## The 401 response on the wire -/

/-- The body of the 401 response is sniffed as plain text. -/
theorem detect_unauthorized_request :
    DetectContentType "unauthorized request".toList = "text/plain; charset=utf-8".toList := by
  decide

/-- The state of the server's response after the mismatch branch of
`authMidWare` has run on the fresh response of a request. -/
theorem serverWriter_unauthorized (r : Request) :
    serverWriter.Write "unauthorized request".toList
        (serverWriter.WriteHeader StatusUnauthorized (some (newResponse r))) =
      some { reqMethod := r.Method, handlerHeader := fun _ => [], wroteHeader := true,
             status := 401, cwHeader := fun _ => [],
             written := "unauthorized request".toList } := by
  rfl

/-- C5: every 401 response `authMidWare` produces, that is the response to every
request it does not delegate, is sent by the server's response writer with
status 401 and the header `Content-Type: text/plain; charset=utf-8`: the
middleware sets no `Content-Type`, so the chunk writer chooses it by sniffing
the body `unauthorized request` when it builds the header block, before it
writes the status line, the header block and the body. The body is
`unauthorized request`, dropped when the request method is `HEAD`. -/
theorem unauthorized_content_type (r : Request) (next : Handler (Option response))
    (h : (r.Header (CanonicalMIMEHeaderKey "X-ContentKey".toList)).head? ≠ some "OK".toList) :
    (serveRequest (authMidWare next) r).map (fun w => w.status) = some 401 ∧
    (serveRequest (authMidWare next) r).map
        (fun w => w.header (CanonicalMIMEHeaderKey "Content-Type".toList)) =
      some ["text/plain; charset=utf-8".toList] ∧
    (serveRequest (authMidWare next) r).map
        (fun w => Header.Get w.header "Content-Type".toList) =
      some "text/plain; charset=utf-8".toList ∧
    (serveRequest (authMidWare next) r).map (fun w => w.body) =
      some (if r.Method = "HEAD".toList then [] else "unauthorized request".toList) := by
  rw [canonical_XContentKey] at h
  have hne : Header.Get r.Header "X-ContentKey".toList ≠ "OK".toList :=
    fun hc => h ((get_eq_OK_iff r.Header).mp hc)
  have hct : CanonicalMIMEHeaderKey "Content-Type".toList = "Content-Type".toList := by decide
  have hhdr : (response.cwWriteHeader
      { reqMethod := r.Method, handlerHeader := fun _ => [], wroteHeader := true,
        status := 401, cwHeader := fun _ => [], written := "unauthorized request".toList }
      "unauthorized request".toList) "Content-Type".toList =
        ["text/plain; charset=utf-8".toList] := by
    rw [← detect_unauthorized_request]
    rfl
  unfold serveRequest
  rw [authMidWare_of_mismatch _ _ _ _ hne, serverWriter_unauthorized]
  refine ⟨rfl, ?_, ?_, ?_⟩
  · rw [hct]
    exact congrArg some hhdr
  · unfold Header.Get
    rw [hct]
    simp only [Option.map_some', response.finishRequest]
    simp only [Bool.not_true, Bool.false_eq_true, if_false]
    rw [hhdr]
  · simp only [Option.map_some', response.finishRequest, Bool.not_true, Bool.false_eq_true,
      if_false, beq_iff_eq]

/-- C5 at the spec's second scenario, `X-ContentKey: nope`, whatever the
downstream handler. -/
theorem unauthorized_content_type_witness :
    (serveRequest (authMidWare (fun _ _ s => s))
        (getItems (headerOf [("X-Contentkey".toList, ["nope".toList])]))).map
      (fun w => Header.Get w.header "Content-Type".toList) =
    some "text/plain; charset=utf-8".toList :=
  (unauthorized_content_type _ (fun _ _ s => s) (by decide)).2.2.1

/-! ## Startup -/

/-- `os.Getenv` returns the empty string exactly for such a variable. -/
theorem getenv_eq_nil_iff (env : Env) (key : Str) :
    Getenv env key = [] ↔ unsetOrEmpty env key := by
  unfold Getenv unsetOrEmpty
  cases env key with
  | none => simp
  | some v => simp

/-- The outcome of `init`. -/
theorem init_eq (env : Env) :
    init env =
      if Getenv env "RP_PORT".toList = [] ∨ Getenv env "RP_TARGET_URL".toList = [] ∨
          Getenv env "RP_HEADER_KEY".toList = [] ∨ Getenv env "RP_HEADER_KEY_VAL".toList = [] then
        Except.error 1
      else
        Except.ok { envTarget := Getenv env "RP_TARGET_URL".toList,
                    envPort := Getenv env "RP_PORT".toList,
                    envKey := Getenv env "RP_HEADER_KEY".toList,
                    envKeyVal := Getenv env "RP_HEADER_KEY_VAL".toList } := by
  unfold init
  simp only [Bool.or_eq_true, beq_iff_eq, List.length_eq_zero, or_assoc]

/-- The outcome of the program. -/
theorem run_eq {σ : Type} (lib : StdLib σ) (env : Env) :
    run lib env =
      if Getenv env "RP_PORT".toList = [] ∨ Getenv env "RP_TARGET_URL".toList = [] ∨
          Getenv env "RP_HEADER_KEY".toList = [] ∨ Getenv env "RP_HEADER_KEY_VAL".toList = [] then
        Except.error 1
      else
        match lib.urlParse (Getenv env "RP_TARGET_URL".toList) with
        | none => Except.error 1
        | some target =>
          Except.ok
            { globals := { envTarget := Getenv env "RP_TARGET_URL".toList,
                           envPort := Getenv env "RP_PORT".toList,
                           envKey := Getenv env "RP_HEADER_KEY".toList,
                           envKeyVal := Getenv env "RP_HEADER_KEY_VAL".toList }
              target := target
              pattern := "/".toList
              handler := authMidWare (NewSingleHostReverseProxy lib target).ServeHTTP
              addr := Getenv env "RP_PORT".toList } := by
  unfold run
  rw [init_eq]
  by_cases h : Getenv env "RP_PORT".toList = [] ∨ Getenv env "RP_TARGET_URL".toList = [] ∨
      Getenv env "RP_HEADER_KEY".toList = [] ∨ Getenv env "RP_HEADER_KEY_VAL".toList = []
  · rw [if_pos h, if_pos h]
  · rw [if_neg h, if_neg h]
    rfl

/-- C6: the program exits with status 1, with no handler registered and no
listener asked for, exactly when one of the four variables is unset or empty
or `url.Parse` rejects `RP_TARGET_URL`; it never exits with another status
before serving; and a server that is set up has all four configuration values
non-empty and the parsed `RP_TARGET_URL` as its target. -/
theorem startup_validation {σ : Type} (lib : StdLib σ) (env : Env) :
    (run lib env = Except.error 1 ↔
      (unsetOrEmpty env "RP_TARGET_URL".toList ∨ unsetOrEmpty env "RP_PORT".toList ∨
        unsetOrEmpty env "RP_HEADER_KEY".toList ∨ unsetOrEmpty env "RP_HEADER_KEY_VAL".toList ∨
        lib.urlParse (Getenv env "RP_TARGET_URL".toList) = none)) ∧
    (∀ code : Nat, run lib env = Except.error code → code = 1) ∧
    (∀ srv : Server σ, run lib env = Except.ok srv →
      srv.globals.envTarget ≠ [] ∧ srv.globals.envPort ≠ [] ∧ srv.globals.envKey ≠ [] ∧
      srv.globals.envKeyVal ≠ [] ∧ lib.urlParse srv.globals.envTarget = some srv.target) := by
  have hrun := run_eq lib env
  refine ⟨?_, ?_, ?_⟩
  · simp only [← getenv_eq_nil_iff]
    rw [hrun]
    by_cases h : Getenv env "RP_PORT".toList = [] ∨ Getenv env "RP_TARGET_URL".toList = [] ∨
        Getenv env "RP_HEADER_KEY".toList = [] ∨ Getenv env "RP_HEADER_KEY_VAL".toList = []
    · rw [if_pos h]
      refine ⟨fun _ => ?_, fun _ => rfl⟩
      rcases h with h | h | h | h
      · exact Or.inr (Or.inl h)
      · exact Or.inl h
      · exact Or.inr (Or.inr (Or.inl h))
      · exact Or.inr (Or.inr (Or.inr (Or.inl h)))
    · rw [if_neg h]
      simp only [not_or] at h
      cases hp : lib.urlParse (Getenv env "RP_TARGET_URL".toList) with
      | none => exact ⟨fun _ => Or.inr (Or.inr (Or.inr (Or.inr rfl))), fun _ => rfl⟩
      | some t =>
        refine ⟨fun hc => Except.noConfusion hc, fun hor => ?_⟩
        rcases hor with h1 | h1 | h1 | h1 | h1
        · exact absurd h1 h.2.1
        · exact absurd h1 h.1
        · exact absurd h1 h.2.2.1
        · exact absurd h1 h.2.2.2
        · exact Option.noConfusion h1
  · intro code hcode
    rw [hrun] at hcode
    by_cases h : Getenv env "RP_PORT".toList = [] ∨ Getenv env "RP_TARGET_URL".toList = [] ∨
        Getenv env "RP_HEADER_KEY".toList = [] ∨ Getenv env "RP_HEADER_KEY_VAL".toList = []
    · rw [if_pos h] at hcode
      injection hcode with hc
      exact hc.symm
    · rw [if_neg h] at hcode
      cases hp : lib.urlParse (Getenv env "RP_TARGET_URL".toList) with
      | none =>
        rw [hp] at hcode
        injection hcode with hc
        exact hc.symm
      | some t =>
        rw [hp] at hcode
        exact Except.noConfusion hcode
  · intro srv hsrv
    obtain ⟨t, ht, htt, -, -, h1, h2, h3, h4, n1, n2, n3, n4⟩ := run_eq_ok lib env srv hsrv
    rw [h1, h2, h3, h4, htt]
    exact ⟨n1, n2, n3, n4, ht⟩

/-- C7 (evaluation at the failing input): with `RP_PORT=8080` the address
handed to `ListenAndServe` is `8080`, not `:8080`. -/
theorem bare_port_not_normalised :
    run (logLib parseOrigin plainPath) apiKeyEnv = Except.ok apiKeyServer ∧
    Getenv apiKeyEnv "RP_PORT".toList = "8080".toList ∧
    apiKeyServer.addr = "8080".toList ∧ apiKeyServer.addr ≠ ":8080".toList := by
  refine ⟨rfl, ?_, rfl, ?_⟩
  · decide
  · decide

/-- The address handed to `ListenAndServe` is the value of `RP_PORT` as read. -/
theorem listen_address_verbatim {σ : Type} (lib : StdLib σ) (env : Env) (srv : Server σ)
    (h : run lib env = Except.ok srv) : srv.addr = Getenv env "RP_PORT".toList := by
  obtain ⟨t, -, -, -, ha, -⟩ := run_eq_ok lib env srv h
  exact ha

/-! ## The outbound request -/

/-- A string that ends in a slash. -/
theorem eq_dropLast_append_slash (a : Str) (h : hasSuffixSlash a = true) :
    a = a.dropLast ++ ['/'] := by
  unfold hasSuffixSlash at h
  rw [beq_iff_eq] at h
  exact (List.dropLast_append_getLast? '/' (by rw [h]; rfl)).symm

/-- A string that starts with a slash. -/
theorem eq_slash_cons_drop (b : Str) (h : hasPrefixSlash b = true) : b = '/' :: b.drop 1 := by
  unfold hasPrefixSlash at h
  rw [beq_iff_eq] at h
  cases b with
  | nil => simp at h
  | cons c cs =>
    simp only [List.head?_cons, Option.some.injEq] at h
    rw [h]
    rfl

/-- The three cases of `singleJoiningSlash`. -/
theorem singleJoiningSlash_cases (a b : Str) :
    singleJoiningSlash a b =
      if hasSuffixSlash a && hasPrefixSlash b then a ++ b.drop 1
      else if !hasSuffixSlash a && !hasPrefixSlash b then a ++ '/' :: b
      else a ++ b := by
  unfold singleJoiningSlash
  dsimp only
  split
  · rfl
  · split
    · simp
    · rfl

/-- What `singleJoiningSlash` computes. -/
theorem singleJoiningSlash_eq (a b : Str) : singleJoiningSlash a b = joinBoundary a b := by
  unfold singleJoiningSlash joinBoundary dropTrailingSlash dropLeadingSlash
  cases ha : hasSuffixSlash a <;> cases hb : hasPrefixSlash b
  · simp
  · simp only [Bool.false_and, Bool.not_false, Bool.not_true, Bool.and_false, if_true,
      if_false, Bool.false_eq_true]
    conv_lhs => rw [eq_slash_cons_drop b hb]
  · simp only [Bool.true_and, Bool.not_true, Bool.false_and, if_true, if_false,
      Bool.false_eq_true]
    conv_lhs => rw [eq_dropLast_append_slash a ha]
    simp
  · simp only [Bool.and_self, if_true]
    conv_lhs => rw [eq_dropLast_append_slash a ha]
    simp

/-- A string that does not start with a slash has no leading slashes to trim. -/
theorem trimLeadingSlashes_of_not_prefix (b : Str) (h : hasPrefixSlash b = false) :
    trimLeadingSlashes b = b := by
  unfold trimLeadingSlashes
  cases b with
  | nil => rfl
  | cons c cs =>
    have hc : ¬((c == '/') = true) := by
      intro hc
      rw [beq_iff_eq] at hc
      rw [hc] at h
      simp [hasPrefixSlash] at h
    exact List.dropWhile_cons_of_neg hc

/-- A string that starts with at most one slash: trimming drops that slash. -/
theorem trimLeadingSlashes_eq (b : Str) (h : startsWithTwoSlashes b = false) :
    trimLeadingSlashes b = dropLeadingSlash b := by
  unfold startsWithTwoSlashes at h
  unfold dropLeadingSlash
  cases hb : hasPrefixSlash b
  · rw [if_neg (by simp)]
    exact trimLeadingSlashes_of_not_prefix b hb
  · rw [hb, Bool.true_and] at h
    rw [if_pos rfl]
    have hrest := trimLeadingSlashes_of_not_prefix (b.drop 1) h
    unfold trimLeadingSlashes at hrest ⊢
    conv_lhs => rw [eq_slash_cons_drop b hb]
    rw [List.dropWhile_cons_of_pos (by simp)]
    exact hrest

/-- A string that does not end in a slash has no trailing slashes to trim. -/
theorem trimTrailingSlashes_of_not_suffix (a : Str) (h : hasSuffixSlash a = false) :
    trimTrailingSlashes a = a := by
  have h2 : hasPrefixSlash a.reverse = false := by
    unfold hasPrefixSlash
    rw [List.head?_reverse]
    exact h
  have h3 := trimLeadingSlashes_of_not_prefix a.reverse h2
  unfold trimLeadingSlashes at h3
  unfold trimTrailingSlashes
  rw [h3, List.reverse_reverse]

/-- A string that ends in at most one slash: trimming drops that slash. -/
theorem trimTrailingSlashes_eq (a : Str) (h : endsInTwoSlashes a = false) :
    trimTrailingSlashes a = dropTrailingSlash a := by
  unfold endsInTwoSlashes at h
  unfold dropTrailingSlash
  cases ha : hasSuffixSlash a
  · rw [if_neg (by simp)]
    exact trimTrailingSlashes_of_not_suffix a ha
  · rw [ha, Bool.true_and] at h
    rw [if_pos rfl]
    have hrest := trimTrailingSlashes_of_not_suffix a.dropLast h
    unfold trimTrailingSlashes at hrest ⊢
    conv_lhs => rw [eq_dropLast_append_slash a ha]
    rw [List.reverse_append, List.reverse_singleton, List.singleton_append,
      List.dropWhile_cons_of_pos (by simp)]
    exact hrest

/-- When either side has at most one slash at the boundary, `singleJoiningSlash`
joins with exactly one slash. -/
theorem singleJoiningSlash_exactly_one (a b : Str) (ha : endsInTwoSlashes a = false)
    (hb : startsWithTwoSlashes b = false) :
    singleJoiningSlash a b = joinExactlyOneSlash a b := by
  rw [singleJoiningSlash_eq]
  unfold joinBoundary joinExactlyOneSlash
  rw [trimTrailingSlashes_eq a ha, trimLeadingSlashes_eq b hb]

/-- The two paths `joinURLPath` returns. When neither URL carries a `RawPath`:
the joined `Path` and no `RawPath`. Otherwise the decision whether to drop or
insert a slash is taken on the escaped paths and applied to `Path` and to
`RawPath` alike. -/
theorem joinURLPath_eq (esc : URL → Str) (a b : URL) :
    (a.RawPath = [] → b.RawPath = [] →
      joinURLPath esc a b = (singleJoiningSlash a.Path b.Path, [])) ∧
    (¬(a.RawPath = [] ∧ b.RawPath = []) →
      joinURLPath esc a b =
        (if hasSuffixSlash (esc a) && hasPrefixSlash (esc b) then a.Path ++ b.Path.drop 1
         else if !hasSuffixSlash (esc a) && !hasPrefixSlash (esc b) then
           a.Path ++ '/' :: b.Path
         else a.Path ++ b.Path,
         singleJoiningSlash (esc a) (esc b))) := by
  constructor
  · intro h1 h2
    unfold joinURLPath
    rw [h1, h2]
    rfl
  · intro h
    have hc : (a.RawPath == [] && b.RawPath == []) = false := by
      rw [Bool.and_eq_false_iff]
      rw [not_and_or] at h
      rcases h with h | h
      · exact Or.inl (beq_eq_false_iff_ne.mpr h)
      · exact Or.inr (beq_eq_false_iff_ne.mpr h)
    unfold joinURLPath singleJoiningSlash
    rw [hc]
    simp only [Bool.false_eq_true, if_false]
    split
    · rfl
    · split
      · simp
      · rfl

/-- The URL `rewriteRequestURL` assigns, field by field. -/
theorem rewriteRequestURL_URL (esc : URL → Str) (r : Request) (target : URL) :
    (rewriteRequestURL esc r target).URL.Scheme = target.Scheme ∧
    (rewriteRequestURL esc r target).URL.Host = target.Host ∧
    (rewriteRequestURL esc r target).URL.Path =
      (joinURLPath esc target { r.URL with Scheme := target.Scheme, Host := target.Host }).1 ∧
    (rewriteRequestURL esc r target).URL.RawPath =
      (joinURLPath esc target { r.URL with Scheme := target.Scheme, Host := target.Host }).2 := by
  unfold rewriteRequestURL
  simp only
  refine ⟨?_, ?_, ?_, ?_⟩ <;> split <;> rfl

/-- The raw query `rewriteRequestURL` assigns. -/
theorem rewriteRequestURL_RawQuery (esc : URL → Str) (r : Request) (target : URL) :
    (rewriteRequestURL esc r target).URL.RawQuery =
      if target.RawQuery = [] ∨ r.URL.RawQuery = [] then target.RawQuery ++ r.URL.RawQuery
      else target.RawQuery ++ '&' :: r.URL.RawQuery := by
  unfold rewriteRequestURL
  by_cases h : target.RawQuery = [] ∨ r.URL.RawQuery = []
  · have hc : (target.RawQuery == [] || r.URL.RawQuery == []) = true := by
      rw [Bool.or_eq_true, beq_iff_eq, beq_iff_eq]
      exact h
    simp only [hc, if_true, if_pos h]
  · have hc : (target.RawQuery == [] || r.URL.RawQuery == []) = false := by
      rw [Bool.or_eq_false_iff]
      rw [not_or] at h
      exact ⟨beq_eq_false_iff_ne.mpr h.1, beq_eq_false_iff_ne.mpr h.2⟩
    simp only [hc, if_false, if_neg h, Bool.false_eq_true]
    exact List.append_assoc target.RawQuery ['&'] r.URL.RawQuery

/-- C8 (counterexample): with the target `http://origin.test:9000/base//` and
the authorized request `GET /api/v1/items?x=1`, the outbound path is
`/base//api/v1/items`: two slashes are left at the join of `/base//` and
`/api/v1/items`, not exactly one. -/
theorem two_slashes_at_join :
    authMidWare (NewSingleHostReverseProxy (logLib parseOrigin plainPath)
        originSlashesURL).ServeHTTP logWriter
        (getItems (headerOf [("X-Contentkey".toList, ["OK".toList])])) [] =
      [Call.forward (rewriteRequestURL plainPath
        (getItems (headerOf [("X-Contentkey".toList, ["OK".toList])])) originSlashesURL)] ∧
    (rewriteRequestURL plainPath
      (getItems (headerOf [("X-Contentkey".toList, ["OK".toList])])) originSlashesURL).URL.Path =
        "/base//api/v1/items".toList ∧
    joinExactlyOneSlash "/base//".toList "/api/v1/items".toList = "/base/api/v1/items".toList ∧
    (rewriteRequestURL plainPath
      (getItems (headerOf [("X-Contentkey".toList, ["OK".toList])])) originSlashesURL).URL.Path ≠
        joinExactlyOneSlash originSlashesURL.Path
          (getItems (headerOf [("X-Contentkey".toList, ["OK".toList])])).URL.Path := by
  refine ⟨rfl, ?_, ?_, ?_⟩
  · decide
  · decide
  · decide

/-- C8 (amended): for every authorized request the proxy handler forwards
exactly one outbound request, the inbound one after `rewriteRequestURL`. Its
URL has the target's scheme and host. When neither URL carries an escaped
`RawPath`, its `Path` is what `singleJoiningSlash` makes of the target's path
and the inbound path (one slash dropped when both have one at the boundary,
one inserted when neither has), which is exactly one slash at the join
whenever the target's path ends in at most one slash and the inbound path
starts with at most one. When a URL carries a `RawPath`, the same decision is
taken on the escaped paths and applied to `Path` and `RawPath` alike. The raw
query is `Q_up&Q_in` when both are non-empty and the other one verbatim when
one is empty; method, headers and body are the inbound ones. -/
theorem outbound_url (p : Str → Option URL) (esc : URL → Str) (target : URL) (r : Request)
    (h : (r.Header (CanonicalMIMEHeaderKey "X-ContentKey".toList)).head? = some "OK".toList) :
    authMidWare (NewSingleHostReverseProxy (logLib p esc) target).ServeHTTP logWriter r [] =
      [Call.forward (rewriteRequestURL esc r target)] ∧
    (rewriteRequestURL esc r target).URL.Scheme = target.Scheme ∧
    (rewriteRequestURL esc r target).URL.Host = target.Host ∧
    (target.RawPath = [] → r.URL.RawPath = [] →
      (rewriteRequestURL esc r target).URL.RawPath = [] ∧
      (rewriteRequestURL esc r target).URL.Path = joinBoundary target.Path r.URL.Path ∧
      (endsInTwoSlashes target.Path = false → startsWithTwoSlashes r.URL.Path = false →
        (rewriteRequestURL esc r target).URL.Path =
          joinExactlyOneSlash target.Path r.URL.Path)) ∧
    (¬(target.RawPath = [] ∧ r.URL.RawPath = []) →
      (rewriteRequestURL esc r target).URL.RawPath =
        joinBoundary (esc target)
          (esc { r.URL with Scheme := target.Scheme, Host := target.Host }) ∧
      (rewriteRequestURL esc r target).URL.Path =
        (if hasSuffixSlash (esc target) &&
            hasPrefixSlash (esc { r.URL with Scheme := target.Scheme, Host := target.Host })
          then target.Path ++ r.URL.Path.drop 1
         else if !hasSuffixSlash (esc target) &&
            !hasPrefixSlash (esc { r.URL with Scheme := target.Scheme, Host := target.Host })
          then target.Path ++ '/' :: r.URL.Path
         else target.Path ++ r.URL.Path) ∧
      (hasSuffixSlash (esc target) = hasSuffixSlash target.Path →
        hasPrefixSlash (esc { r.URL with Scheme := target.Scheme, Host := target.Host }) =
          hasPrefixSlash r.URL.Path →
        (rewriteRequestURL esc r target).URL.Path = joinBoundary target.Path r.URL.Path)) ∧
    (target.RawQuery ≠ [] → r.URL.RawQuery ≠ [] →
      (rewriteRequestURL esc r target).URL.RawQuery =
        target.RawQuery ++ '&' :: r.URL.RawQuery) ∧
    (target.RawQuery = [] →
      (rewriteRequestURL esc r target).URL.RawQuery = r.URL.RawQuery) ∧
    (r.URL.RawQuery = [] →
      (rewriteRequestURL esc r target).URL.RawQuery = target.RawQuery) ∧
    (rewriteRequestURL esc r target).Method = r.Method ∧
    (rewriteRequestURL esc r target).Header = r.Header ∧
    (rewriteRequestURL esc r target).Body = r.Body := by
  rw [canonical_XContentKey] at h
  have hok : Header.Get r.Header "X-ContentKey".toList = "OK".toList :=
    (get_eq_OK_iff r.Header).mpr h
  have hq := rewriteRequestURL_RawQuery esc r target
  have hj := joinURLPath_eq esc target { r.URL with Scheme := target.Scheme, Host := target.Host }
  obtain ⟨hs, hh, hp, hrp⟩ := rewriteRequestURL_URL esc r target
  refine ⟨?_, hs, hh, ?_, ?_, ?_, ?_, ?_, rfl, rfl, rfl⟩
  · rw [log_authMidWare_proxy, if_pos hok]
  · intro h1 h2
    have hj1 := hj.1 h1 h2
    rw [hp, hrp, hj1]
    refine ⟨rfl, singleJoiningSlash_eq _ _, fun ha hb => ?_⟩
    exact singleJoiningSlash_exactly_one _ _ ha hb
  · intro h1
    have hj2 := hj.2 h1
    rw [hp, hrp, hj2]
    refine ⟨singleJoiningSlash_eq _ _, rfl, fun ha hb => ?_⟩
    simp only
    rw [ha, hb, ← singleJoiningSlash_eq, singleJoiningSlash_cases]
  · intro h1 h2
    rw [hq, if_neg (not_or.mpr ⟨h1, h2⟩)]
  · intro h1
    rw [hq, if_pos (Or.inl h1), h1]
    rfl
  · intro h1
    rw [hq, if_pos (Or.inr h1), h1, List.append_nil]

/-- C8 (amended) at the scenario: target `http://origin.test:9000/base` and
`GET /api/v1/items?x=1` with `X-ContentKey: OK` give the one outbound request
`GET http://origin.test:9000/base/api/v1/items?x=1`. -/
theorem outbound_url_witness :
    authMidWare (NewSingleHostReverseProxy (logLib parseOrigin plainPath) originURL).ServeHTTP
        logWriter (getItems (headerOf [("X-Contentkey".toList, ["OK".toList])])) [] =
      [Call.forward
        { getItems (headerOf [("X-Contentkey".toList, ["OK".toList])]) with
          URL := { Scheme := "http".toList, Host := "origin.test:9000".toList,
                   Path := "/base/api/v1/items".toList, RawPath := [],
                   RawQuery := "x=1".toList } }] :=
  (outbound_url parseOrigin plainPath originURL
    (getItems (headerOf [("X-Contentkey".toList, ["OK".toList])])) (by decide)).1

/-- C9 (counterexample): in the scenario, a client that sends
`Host: gateway.test:8080` has the outbound request carry that `Host`, not
`origin.test:9000`. -/
theorem inbound_host_forwarded :
    authMidWare (NewSingleHostReverseProxy (logLib parseOrigin plainPath) originURL).ServeHTTP
        logWriter (getItems (headerOf [("X-Contentkey".toList, ["OK".toList])])) [] =
      [Call.forward (rewriteRequestURL plainPath
        (getItems (headerOf [("X-Contentkey".toList, ["OK".toList])])) originURL)] ∧
    (rewriteRequestURL plainPath
      (getItems (headerOf [("X-Contentkey".toList, ["OK".toList])])) originURL).Host =
        "gateway.test:8080".toList ∧
    (rewriteRequestURL plainPath
      (getItems (headerOf [("X-Contentkey".toList, ["OK".toList])])) originURL).Host ≠
        originURL.Host := by
  refine ⟨rfl, rfl, ?_⟩
  decide

/-- C9 (amended): for every authorized request the outbound request's URL host
is the target's host, and its `Host` field is the inbound `Host`, unchanged. -/
theorem outbound_host (p : Str → Option URL) (esc : URL → Str) (target : URL) (r : Request)
    (h : (r.Header (CanonicalMIMEHeaderKey "X-ContentKey".toList)).head? = some "OK".toList) :
    authMidWare (NewSingleHostReverseProxy (logLib p esc) target).ServeHTTP logWriter r [] =
      [Call.forward (rewriteRequestURL esc r target)] ∧
    (rewriteRequestURL esc r target).URL.Host = target.Host ∧
    (rewriteRequestURL esc r target).Host = r.Host := by
  rw [canonical_XContentKey] at h
  have hok : Header.Get r.Header "X-ContentKey".toList = "OK".toList :=
    (get_eq_OK_iff r.Header).mpr h
  refine ⟨?_, ?_, rfl⟩
  · rw [log_authMidWare_proxy, if_pos hok]
  · unfold rewriteRequestURL
    simp only
    split <;> rfl

/-- C9 (amended) at the scenario: the URL host is `origin.test:9000` and the
`Host` field stays `gateway.test:8080`. -/
theorem outbound_host_witness :
    (rewriteRequestURL plainPath
      (getItems (headerOf [("X-Contentkey".toList, ["OK".toList])])) originURL).URL.Host =
        "origin.test:9000".toList ∧
    (rewriteRequestURL plainPath
      (getItems (headerOf [("X-Contentkey".toList, ["OK".toList])])) originURL).Host =
        "gateway.test:8080".toList :=
  (outbound_host parseOrigin plainPath originURL
    (getItems (headerOf [("X-Contentkey".toList, ["OK".toList])])) (by decide)).2

end Gateway
